import Mathlib

/-!
Verification of the PerceptTools pipeline: extraction, sanitization and
outlier filtering of per-hemisphere LFP/amplitude time series from Percept
telemetry documents (`PerceptSessions.py`, `aDBS_analyzer.py`,
`lfp_plotly_streamlit.py`).

Shallow embedding conventions:
* numeric data is `ℚ`; the NaN missing-value sentinel of a float column is
  `none : Option ℚ` (numpy comparisons against NaN are false, which the
  explicit `Option` dispatch reproduces);
* JSON-like documents become inductive trees / structures with `Option`
  fields for possibly-absent keys;
* Python `dict.get(k, default)` becomes `Option.getD`; direct `d[k]`
  indexing (which raises `KeyError` on an absent key) becomes `Except`.

Batteries marks the `Rat` arithmetic operations irreducible, which blocks
`decide` on concrete rational computations; re-marking them semireducible
only changes unfolding hints, not definitions, and keeps every proof going
through the kernel.
-/

set_option allowUnsafeReducibility true in
attribute [semireducible] Rat.add Rat.mul Rat.sub Rat.inv Rat.neg Rat.ofScientific

namespace PerceptSessions

/-! ### remove_outliers — robust Z-score (MAD) filter, PerceptSessions.py -/

/-- Median of a list of rationals: sort ascending and take the middle
element, or the mean of the two middle elements when the length is even
(numpy median semantics). Returns `none` on an empty list. -/
def listMedian (vs : List ℚ) : Option ℚ :=
  let s := vs.insertionSort (· ≤ ·)
  let n := s.length
  if n = 0 then none
  else if n % 2 = 1 then some (s.getD (n / 2) 0)
  else some ((s.getD (n / 2 - 1) 0 + s.getD (n / 2) 0) / 2)

/-- Model of `np.nanmedian` over a value column in which `none` stands for
the NaN missing-value sentinel: sentinels are ignored, and the median of a
column with no valid value is itself `none` (numpy returns NaN there). -/
def nanmedian (data : List (Option ℚ)) : Option ℚ :=
  listMedian (data.filterMap id)

/-- Elementwise `np.abs(data - median)`: NaN inputs (and a NaN median)
propagate to NaN. -/
def deviations (data : List (Option ℚ)) (med : Option ℚ) : List (Option ℚ) :=
  data.map fun v =>
    match v, med with
    | some x, some m => some |x - m|
    | _, _ => none

/-- MAD of the value column: `np.nanmedian(np.abs(data - median))`. -/
def madOf (data : List (Option ℚ)) : Option ℚ :=
  nanmedian (deviations data (nanmedian data))

/-- The `if mad == 0: mad = 1e-6` epsilon guard (a NaN MAD compares
unequal to 0 and is left alone). -/
def guardMad : Option ℚ → Option ℚ
  | some m => if m = 0 then some (1 / 1000000) else some m
  | none => none

/-- Robust Z-score `(value - median) / (1.4826 * mad)`; NaN anywhere
propagates to NaN. -/
def zscore (v med mad : Option ℚ) : Option ℚ :=
  match v, med, mad with
  | some x, some m, some d => some ((x - m) / (14826 / 10000 * d))
  | _, _, _ => none

/-- Embedding of `remove_outliers` from `PerceptSessions.py`: compute the
nanmedian and the epsilon-guarded MAD of the value list and keep each value
whose `abs(z) < threshold`; every other value — including NaN inputs, whose
comparison with the threshold is false — becomes the NaN sentinel. The
record count and order are untouched (elementwise `map`). -/
def remove_outliers (data : List (Option ℚ)) (threshold : ℚ) : List (Option ℚ) :=
  let med := nanmedian data
  let mad := guardMad (madOf data)
  data.map fun v =>
    match zscore v med mad with
    | some z => if |z| < threshold then v else none
    | none => none

/-- Boolean reading of "no value of the series lies at or beyond the
threshold", the side condition of the fixed-point property: every value
with a defined robust Z-score (computed on this very series) satisfies
`abs(z) < threshold`, and every value with an undefined Z-score is already
the NaN sentinel. -/
def withinThreshold (data : List (Option ℚ)) (threshold : ℚ) : Bool :=
  data.all fun v =>
    match zscore v (nanmedian data) (guardMad (madOf data)) with
    | some z => decide (|z| < threshold)
    | none => v == none

/-! ### BrainSenseLfp / LfpData session-mode extraction, PerceptSessions.py -/

/-- A `Left`/`Right` sub-object of an `LfpData` entry: `{LFP, mA}`, each
key possibly absent. -/
structure LfpChannelSample where
  lfp : Option ℚ
  mA : Option ℚ
deriving DecidableEq

/-- One `LfpData` entry: `{TicksInMs, Left?, Right?}`. `TicksInMs` is a
millisecond counter, hence `ℕ` when present. -/
structure LfpDataItem where
  ticksInMs : Option ℕ
  left : Option LfpChannelSample
  right : Option LfpChannelSample
deriving DecidableEq

/-- The timestamp loop `timestamps.append(item.get('TicksInMs', 0))`: an
entry lacking the key contributes the number 0, not a sentinel. -/
def extract_timestamps (lfp_data : List LfpDataItem) : List ℕ :=
  lfp_data.map fun item => item.ticksInMs.getD 0

/-- Python `min` over the timestamp list (the processing loop only runs
with at least two samples, so the list is nonempty there). -/
def list_min : List ℕ → ℕ
  | [] => 0
  | t :: ts => ts.foldl Nat.min t

/-- `timestamps_in_seconds = [(t - min_time) / 1000 for t in timestamps]`. -/
def normalize_timestamps (timestamps : List ℕ) : List ℚ :=
  let min_time := list_min timestamps
  timestamps.map fun t => ((t : ℚ) - (min_time : ℚ)) / 1000

/-! ### remove_long_columns — recursive sanitization, PerceptSessions.py -/

/- JSON-like trees: scalars, sequences and string-keyed mappings.
`JsonArr`/`JsonObj` are the spine of the nested sequence/mapping so that
the sanitizer and its proofs are plain mutual structural recursion. -/
mutual
inductive Json where
  | null : Json
  | boolVal : Bool → Json
  | num : ℚ → Json
  | str : String → Json
  | arr : JsonArr → Json
  | obj : JsonObj → Json
inductive JsonArr where
  | nil : JsonArr
  | cons : Json → JsonArr → JsonArr
inductive JsonObj where
  | nil : JsonObj
  | cons : String → Json → JsonObj → JsonObj
end

/-- The fixed excluded-key set of `remove_long_columns`. -/
def exclude_keys : List String := ["SignalFrequencies", "SignalPsdValues"]

/- Embedding of `remove_long_columns`: on a mapping, keep each key not in
`excl` (in order) with its value recursively sanitized; on a sequence,
sanitize each element in order; scalars pass through. -/
mutual
def remove_long_columns (excl : List String) : Json → Json
  | .null => .null
  | .boolVal b => .boolVal b
  | .num q => .num q
  | .str s => .str s
  | .arr xs => .arr (removeArr excl xs)
  | .obj fs => .obj (removeObj excl fs)
def removeArr (excl : List String) : JsonArr → JsonArr
  | .nil => .nil
  | .cons j rest => .cons (remove_long_columns excl j) (removeArr excl rest)
def removeObj (excl : List String) : JsonObj → JsonObj
  | .nil => .nil
  | .cons k v rest =>
    if excl.contains k then removeObj excl rest
    else .cons k (remove_long_columns excl v) (removeObj excl rest)
end

/- Does a tree contain, at any depth, a mapping entry whose key belongs to
`excl`? -/
mutual
def hasKeyJson (excl : List String) : Json → Bool
  | .null => false
  | .boolVal _ => false
  | .num _ => false
  | .str _ => false
  | .arr xs => hasKeyArr excl xs
  | .obj fs => hasKeyObj excl fs
def hasKeyArr (excl : List String) : JsonArr → Bool
  | .nil => false
  | .cons j rest => hasKeyJson excl j || hasKeyArr excl rest
def hasKeyObj (excl : List String) : JsonObj → Bool
  | .nil => false
  | .cons k v rest => excl.contains k || hasKeyJson excl v || hasKeyObj excl rest
end

/-- Spec-side projection: drop exactly the excluded-key entries of one
mapping node, touching nothing else — the `if k not in exclude_keys` part
of the comprehension, with no recursion into values. -/
def filterKeys (excl : List String) : JsonObj → JsonObj
  | .nil => .nil
  | .cons k v rest =>
    if excl.contains k then filterKeys excl rest
    else .cons k v (filterKeys excl rest)

/-- Spec-side projection: sanitize every value of one mapping node in
place, keeping every key and the entry order — the `k: rec(v)` part of the
comprehension. -/
def sanitizeValues (excl : List String) : JsonObj → JsonObj
  | .nil => .nil
  | .cons k v rest => .cons k (remove_long_columns excl v) (sanitizeValues excl rest)

/-- The key list of a mapping node, in order. -/
def keysObj : JsonObj → List String
  | .nil => []
  | .cons k _ rest => k :: keysObj rest

/-- The length of a sequence node. -/
def lengthArr : JsonArr → ℕ
  | .nil => 0
  | .cons _ rest => lengthArr rest + 1

/-- The n-th element of a sequence node. -/
def getArr : JsonArr → ℕ → Option Json
  | .nil, _ => none
  | .cons j _, 0 => some j
  | .cons _ rest, n + 1 => getArr rest n

end PerceptSessions

namespace ADBS

/-! ### aDBS_analyzer.py and lfp_plotly_streamlit.py

The two files carry the same IQR `remove_outliers`, the same
`extract_lfp_thresholds` and near-identical `extract_lfp_amplitude_data`
(the streamlit variant guards the empty frame, the aDBS variant does not);
shared parts are embedded once.  (`lfp_plotly_streamlit.py` line 10 spells
the IQR as `Q3 - Q1.0`, a syntax error; the intended computation `Q3 - Q1`
is what is embedded.) -/

/-- A flattened trend-log record `{DateTime, LFP, Amplitude}`; `DateTime`
is modelled as rational hours on a linear time axis. -/
structure Record where
  dateTime : ℚ
  lfp : ℚ
  amplitude : ℚ
deriving DecidableEq

/-- One entry of a trend-log bucket; each of the three keys may be absent
in the raw JSON. -/
structure TrendEntry where
  dateTime : Option ℚ
  lfp : Option ℚ
  amplitudeInMilliAmps : Option ℚ
deriving DecidableEq

/-- A per-hemisphere log: mapping of opaque timestamp-bucket keys to lists
of entries (`dict` iteration order = association-list order). -/
abbrev Buckets := List (String × List TrendEntry)

/-- The part of the document reached through
`data["DiagnosticData"]["LFPTrendLogs"]`. -/
structure TrendDoc where
  lfpTrendLogs : List (String × Buckets)
deriving DecidableEq

/-- `...["LFPTrendLogs"].get(f"HemisphereLocationDef.{hemisphere}", {})`. -/
def getLogs (doc : TrendDoc) (hemisphere : String) : Buckets :=
  (doc.lfpTrendLogs.lookup ("HemisphereLocationDef." ++ hemisphere)).getD []

/-- Direct `entry["Key"]` indexing: `KeyError` on an absent key. -/
def getKey : Option ℚ → Except Unit ℚ
  | some v => .ok v
  | none => .error ()

/-- Building one record from one entry: `{"DateTime": entry["DateTime"],
"LFP": entry["LFP"], "Amplitude": entry["AmplitudeInMilliAmps"]}` — three
direct indexings, each of which can raise. -/
def readEntry (entry : TrendEntry) : Except Unit Record := do
  let d ← getKey entry.dateTime
  let l ← getKey entry.lfp
  let a ← getKey entry.amplitudeInMilliAmps
  pure ⟨d, l, a⟩

/-- The flattening loop `for timestamp, values in logs.items(): for entry
in values: records.append(...)`; a `KeyError` anywhere aborts the whole
extraction. -/
def buildRecords (logs : Buckets) : Except Unit (List Record) :=
  ((logs.map fun bucket => bucket.2).flatten).mapM readEntry

/-- Modelled from the spec: the TimeSeriesBuilder contract reads
`DateTime`, `LFP` and `AmplitudeInMilliAmps` from each entry via
SchemaNavigator, an absent field yielding the explicit missing-value
sentinel (never zero, never an error); the code instead indexes the keys
directly. One record per entry, in bucket order. -/
def buildRecords_spec (logs : Buckets) : List TrendEntry :=
  ((logs.map fun bucket => bucket.2).flatten).map fun e =>
    ⟨e.dateTime, e.lfp, e.amplitudeInMilliAmps⟩

/-- `df.sort_values("DateTime")`: stable ascending sort on the timestamp. -/
def sortByDateTime (recs : List Record) : List Record :=
  recs.insertionSort fun r s => r.dateTime ≤ s.dateTime

/-- Pandas `Series.quantile(q)` with the default linear interpolation: on
the sorted values, position `q * (n - 1)` splits into integer part `j` and
fractional part, and the result interpolates between neighbours `j` and
`j + 1`. -/
def quantile (vs : List ℚ) (q : ℚ) : ℚ :=
  let s := vs.insertionSort (· ≤ ·)
  let n := s.length
  let pos := q * ((n : ℚ) - 1)
  let j := (Rat.floor pos).toNat
  let frac := pos - ((j : ℕ) : ℚ)
  s.getD j 0 + frac * (s.getD (j + 1) 0 - s.getD j 0)

/-- `Q1` of the LFP column. -/
def q1_lfp (df : List Record) : ℚ := quantile (df.map fun r => r.lfp) (1 / 4)

/-- `Q3` of the LFP column. -/
def q3_lfp (df : List Record) : ℚ := quantile (df.map fun r => r.lfp) (3 / 4)

/-- `lower_bound = Q1 - 1.5 * IQR`. -/
def lower_bound (df : List Record) : ℚ := q1_lfp df - 3 / 2 * (q3_lfp df - q1_lfp df)

/-- `upper_bound = Q3 + 1.5 * IQR`. -/
def upper_bound (df : List Record) : ℚ := q3_lfp df + 3 / 2 * (q3_lfp df - q1_lfp df)

/-- Embedding of the IQR `remove_outliers` (on the LFP column): keep
exactly the rows whose value lies within the fences, inclusive. The
quantile of an empty column is NaN, every comparison against which is
false, so an empty frame filters to itself. -/
def remove_outliers (df : List Record) : List Record :=
  match df with
  | [] => []
  | _ => df.filter fun r =>
      decide (lower_bound df ≤ r.lfp) && decide (r.lfp ≤ upper_bound df)

/-- `df["DateTime"].max()` — `none` on an empty frame. -/
def latest_time (df : List Record) : Option ℚ :=
  (df.map fun r => r.dateTime).max?

/-- The time-window step of `extract_lfp_amplitude_data` (aDBS variant):
`cutoff_time = latest_time - timedelta(hours=h)`; keep
`df["DateTime"] >= cutoff_time`. On an empty frame the max is NaT and every
comparison is false, so the empty frame passes through unchanged. -/
def time_window_filter (df : List Record) (time_filter_hours : ℚ) : List Record :=
  match latest_time df with
  | none => df
  | some latest =>
    let cutoff_time := latest - time_filter_hours
    df.filter fun r => decide (cutoff_time ≤ r.dateTime)

/-- Embedding of `extract_lfp_amplitude_data` from `aDBS_analyzer.py`:
flatten, frame, sort, time-window, IQR-filter. An empty record list makes
`pd.DataFrame(records)` a frame without columns, on which
`sort_values("DateTime")` raises `KeyError` — hence `Except.error`. -/
def extract_lfp_amplitude_data (doc : TrendDoc) (hemisphere : String)
    (time_filter_hours : ℚ) : Except Unit (List Record) :=
  match buildRecords (getLogs doc hemisphere) with
  | .error e => .error e
  | .ok records =>
    if records.isEmpty then .error ()
    else
      .ok (remove_outliers (time_window_filter (sortByDateTime records) time_filter_hours))

/-- Embedding of `extract_lfp_amplitude_data` from
`lfp_plotly_streamlit.py`: same flattening, but the `if not df.empty:`
guard returns the empty frame untouched instead of raising, and there is
no time-window step. -/
def extract_lfp_amplitude_data_plotly (doc : TrendDoc) (hemisphere : String) :
    Except Unit (List Record) :=
  match buildRecords (getLogs doc hemisphere) with
  | .error e => .error e
  | .ok records =>
    if records.isEmpty then .ok []
    else .ok (remove_outliers (sortByDateTime records))

/-! ### extract_lfp_thresholds (identical in both files) -/

/-- One element of `ProgramSettings.SensingChannel`. -/
structure SensingChannel where
  hemisphereLocation : Option String
  upperLfpThreshold : Option ℚ
  lowerLfpThreshold : Option ℚ
deriving DecidableEq

/-- One element of `Groups.Final`: `ActiveGroup` (absent reads as false)
and the sensing-channel list (absent pieces read as empty). -/
structure Group where
  activeGroup : Option Bool
  sensingChannel : List SensingChannel
deriving DecidableEq

/-- The inner loop: first channel of the list whose `HemisphereLocation`
equals `"HemisphereLocationDef.<hemisphere>"`. -/
def findChannel (channels : List SensingChannel) (hemisphere : String) :
    Option SensingChannel :=
  channels.find? fun s =>
    s.hemisphereLocation == some ("HemisphereLocationDef." ++ hemisphere)

/-- Embedding of `extract_lfp_thresholds`: walk the groups in order; in
each group flagged active, look for a hemisphere-matching channel and
return its bounds on the first hit; when a group (active or not) yields no
hit the loop continues with the remaining groups; `(None, None)` when the
scan falls through. -/
def extract_lfp_thresholds (groups : List Group) (hemisphere : String) :
    Option ℚ × Option ℚ :=
  match groups with
  | [] => (none, none)
  | program :: rest =>
    if program.activeGroup.getD false then
      match findChannel program.sensingChannel hemisphere with
      | some setting => (setting.upperLfpThreshold, setting.lowerLfpThreshold)
      | none => extract_lfp_thresholds rest hemisphere
    else extract_lfp_thresholds rest hemisphere

/-- Modelled from the claim wording: select the FIRST group whose
`ActiveGroup` flag is true and look for the hemisphere's channel only
inside that one group; `(absent, absent)` when the selected group has no
matching channel. -/
def resolve_thresholds_first_active (groups : List Group) (hemisphere : String) :
    Option ℚ × Option ℚ :=
  match groups.find? fun g => g.activeGroup.getD false with
  | none => (none, none)
  | some g =>
    match findChannel g.sensingChannel hemisphere with
    | some setting => (setting.upperLfpThreshold, setting.lowerLfpThreshold)
    | none => (none, none)

/-- The scan the code actually performs, stated declaratively: the first
hemisphere-matching channel found in any group flagged active, groups in
document order. -/
def resolve_thresholds_scan (groups : List Group) (hemisphere : String) :
    Option ℚ × Option ℚ :=
  match (groups.filter fun g => g.activeGroup.getD false).findSome?
      (fun g => findChannel g.sensingChannel hemisphere) with
  | some setting => (setting.upperLfpThreshold, setting.lowerLfpThreshold)
  | none => (none, none)

end ADBS

/-! ## Helper lemmas -/

/-- Mapping a function that fixes every member of a list is the identity. -/
theorem map_id_of_mem {α : Type} (f : α → α) :
    ∀ l : List α, (∀ x ∈ l, f x = x) → l.map f = l
  | [], _ => rfl
  | a :: l, h => by
    rw [List.map_cons, h a (List.mem_cons_self a l),
      map_id_of_mem f l fun x hx => h x (List.mem_cons_of_mem a hx)]

namespace PerceptSessions

/-- The median of a nonempty list of values is defined. -/
theorem listMedian_isSome (vs : List ℚ) (h : vs ≠ []) : (listMedian vs).isSome = true := by
  have hlen : (vs.insertionSort (· ≤ ·)).length = vs.length :=
    List.length_insertionSort _ _
  have hne : ¬((vs.insertionSort (· ≤ ·)).length = 0) := by
    rw [hlen]
    exact fun h0 => h (List.length_eq_zero.mp h0)
  unfold listMedian
  rw [if_neg hne]
  split <;> rfl

/-- A column containing at least one valid value has a defined nanmedian. -/
theorem nanmedian_isSome_of_mem (data : List (Option ℚ)) (x : ℚ) (hx : some x ∈ data) :
    (nanmedian data).isSome = true := by
  apply listMedian_isSome
  intro hnil
  have hmem : x ∈ data.filterMap id := List.mem_filterMap.mpr ⟨some x, hx, rfl⟩
  rw [hnil] at hmem
  exact absurd hmem (List.not_mem_nil x)

/-- A column containing at least one valid value has a defined MAD. -/
theorem madOf_isSome_of_mem (data : List (Option ℚ)) (x : ℚ) (hx : some x ∈ data) :
    (madOf data).isSome = true := by
  obtain ⟨m, hm⟩ := Option.isSome_iff_exists.mp (nanmedian_isSome_of_mem data x hx)
  have hdev : some |x - m| ∈ deviations data (nanmedian data) := by
    unfold deviations
    rw [hm]
    exact List.mem_map.mpr ⟨some x, hx, rfl⟩
  exact nanmedian_isSome_of_mem _ _ hdev

/-- The epsilon guard preserves definedness. -/
theorem guardMad_isSome (o : Option ℚ) (h : o.isSome = true) :
    (guardMad o).isSome = true := by
  cases o with
  | none => exact absurd h (by simp)
  | some m =>
    show (if m = 0 then some ((1 : ℚ) / 1000000) else some m).isSome = true
    split <;> rfl

/-- The Z-score of a valid value is defined whenever median and MAD are. -/
theorem zscore_isSome (x : ℚ) (med mad : Option ℚ) (h1 : med.isSome = true)
    (h2 : mad.isSome = true) : (zscore (some x) med mad).isSome = true := by
  obtain ⟨m, hm⟩ := Option.isSome_iff_exists.mp h1
  obtain ⟨d, hd⟩ := Option.isSome_iff_exists.mp h2
  rw [hm, hd]
  rfl

end PerceptSessions

/-! ## Claim theorems -/

/-- C1: the MAD outlier filter returns a series of the same length and
order in which exactly the values whose absolute robust Z-score — value
minus nanmedian over 1.4826 times the epsilon-guarded MAD, medians ignoring
the missing-value sentinel — reaches the threshold are replaced by the
sentinel, every other value being unchanged; on values [1,2,3,100,4,5] with
threshold 3 only the 100 is replaced. -/
theorem C1_mad_filter_masks_exactly_threshold_values
    (data : List (Option ℚ)) (threshold : ℚ) :
    (PerceptSessions.remove_outliers data threshold).length = data.length ∧
    (∀ i : ℕ,
      (PerceptSessions.remove_outliers data threshold).getD i none =
        match PerceptSessions.zscore (data.getD i none) (PerceptSessions.nanmedian data)
            (PerceptSessions.guardMad (PerceptSessions.madOf data)) with
        | some z => if threshold ≤ |z| then none else data.getD i none
        | none => none) ∧
    PerceptSessions.remove_outliers [some 1, some 2, some 3, some 100, some 4, some 5] 3 =
      [some 1, some 2, some 3, none, some 4, some 5] := by
  refine ⟨List.length_map _ _, fun i => ?_, by decide⟩
  simp only [PerceptSessions.remove_outliers, List.getD_eq_getElem?_getD,
    List.getElem?_map]
  cases hv : data[i]? with
  | none => rfl
  | some v =>
    simp only [Option.map_some', Option.getD_some]
    cases hz : PerceptSessions.zscore v (PerceptSessions.nanmedian data)
        (PerceptSessions.guardMad (PerceptSessions.madOf data)) with
    | none => rfl
    | some z =>
      show (if |z| < threshold then v else none) = if threshold ≤ |z| then none else v
      rcases lt_or_le |z| threshold with h | h
      · rw [if_pos h, if_neg (not_le.mpr h)]
      · rw [if_neg (not_lt.mpr h), if_pos h]

/-- C7 counterexample: neither outlier filter is idempotent. The MAD filter
on [0,0,0,5,5,100] (threshold 3) first masks only 100, but the refiltered
series has median 0 and MAD 0, so the epsilon guard then masks the 5s; the
IQR filter on values [0,0,0,1,3] first removes 3, and the recomputed fences
of the survivors then remove 1. -/
theorem C7_not_idempotent_counterexample :
    PerceptSessions.remove_outliers
        (PerceptSessions.remove_outliers
          [some 0, some 0, some 0, some 5, some 5, some 100] 3) 3 ≠
      PerceptSessions.remove_outliers
        [some 0, some 0, some 0, some 5, some 5, some 100] 3 ∧
    ADBS.remove_outliers
        (ADBS.remove_outliers [⟨0, 0, 0⟩, ⟨1, 0, 0⟩, ⟨2, 0, 0⟩, ⟨3, 1, 0⟩, ⟨4, 3, 0⟩]) ≠
      ADBS.remove_outliers [⟨0, 0, 0⟩, ⟨1, 0, 0⟩, ⟨2, 0, 0⟩, ⟨3, 1, 0⟩, ⟨4, 3, 0⟩] := by
  constructor <;> decide

/-- C7 amended: a series in which no value lies at or beyond the filter's
own fences is a fixed point — for the MAD filter, a series whose every
value has absolute robust Z-score below the threshold (undefined Z-scores
occurring only at values that are already the sentinel); for the IQR
filter, a series whose every value lies within the fences computed on that
series. Idempotence in general fails (see the counterexample). -/
theorem C7_unflagged_series_is_fixed_point :
    (∀ (data : List (Option ℚ)) (threshold : ℚ),
        PerceptSessions.withinThreshold data threshold = true →
        PerceptSessions.remove_outliers data threshold = data) ∧
    (∀ df : List ADBS.Record,
        (∀ r ∈ df, ADBS.lower_bound df ≤ r.lfp ∧ r.lfp ≤ ADBS.upper_bound df) →
        ADBS.remove_outliers df = df) := by
  constructor
  · intro data threshold h
    unfold PerceptSessions.withinThreshold at h
    unfold PerceptSessions.remove_outliers
    apply map_id_of_mem
    intro v hv
    have hall := List.all_eq_true.mp h v hv
    cases hz : PerceptSessions.zscore v (PerceptSessions.nanmedian data)
        (PerceptSessions.guardMad (PerceptSessions.madOf data)) with
    | none =>
      rw [hz] at hall
      simp only at hall
      have hvnone : v = none := by
        cases v with
        | none => rfl
        | some x => exact absurd hall (by simp)
      simp only [hz, hvnone]
    | some z =>
      rw [hz] at hall
      simp only at hall
      simp only [hz, if_pos (of_decide_eq_true hall)]
  · intro df h
    cases df with
    | nil => rfl
    | cons a l =>
      show List.filter
          (fun r => decide (ADBS.lower_bound (a :: l) ≤ r.lfp) &&
            decide (r.lfp ≤ ADBS.upper_bound (a :: l))) (a :: l) = a :: l
      apply List.filter_eq_self.mpr
      intro r hr
      rw [Bool.and_eq_true, decide_eq_true_eq, decide_eq_true_eq]
      exact h r hr

/-- C7 witness: concrete fixed points of both filters obtained from the
fixed-point theorem. -/
theorem C7_unflagged_series_is_fixed_point_witness :
    PerceptSessions.remove_outliers [some 1, some 2, some 3] 3 =
      [some 1, some 2, some 3] ∧
    ADBS.remove_outliers [⟨0, 1, 0⟩, ⟨1, 2, 0⟩, ⟨2, 3, 0⟩] =
      [⟨0, 1, 0⟩, ⟨1, 2, 0⟩, ⟨2, 3, 0⟩] :=
  ⟨C7_unflagged_series_is_fixed_point.1 [some 1, some 2, some 3] 3 (by decide),
   C7_unflagged_series_is_fixed_point.2 [⟨0, 1, 0⟩, ⟨1, 2, 0⟩, ⟨2, 3, 0⟩] (by decide)⟩

/-- C2: the IQR filter keeps exactly the records whose LFP value lies
within [Q1 - 1.5*IQR, Q3 + 1.5*IQR] inclusive (quartiles by linear
interpolation), removing the others entirely while preserving order; on
values [1,2,3,4,5,100] the quartiles are 2.25 and 4.75, the fences
[-1.5, 8.5], and only the record with value 100 is removed. -/
theorem C2_iqr_filter_removes_outside_fences :
    (∀ df : List ADBS.Record,
      (ADBS.remove_outliers df).Sublist df ∧
      ∀ r : ADBS.Record, r ∈ ADBS.remove_outliers df ↔
        r ∈ df ∧ ADBS.lower_bound df ≤ r.lfp ∧ r.lfp ≤ ADBS.upper_bound df) ∧
    ADBS.q1_lfp [⟨0, 1, 0⟩, ⟨1, 2, 0⟩, ⟨2, 3, 0⟩, ⟨3, 4, 0⟩, ⟨4, 5, 0⟩, ⟨5, 100, 0⟩] = 9 / 4 ∧
    ADBS.q3_lfp [⟨0, 1, 0⟩, ⟨1, 2, 0⟩, ⟨2, 3, 0⟩, ⟨3, 4, 0⟩, ⟨4, 5, 0⟩, ⟨5, 100, 0⟩] = 19 / 4 ∧
    ADBS.lower_bound [⟨0, 1, 0⟩, ⟨1, 2, 0⟩, ⟨2, 3, 0⟩, ⟨3, 4, 0⟩, ⟨4, 5, 0⟩, ⟨5, 100, 0⟩] =
      -(3 / 2) ∧
    ADBS.upper_bound [⟨0, 1, 0⟩, ⟨1, 2, 0⟩, ⟨2, 3, 0⟩, ⟨3, 4, 0⟩, ⟨4, 5, 0⟩, ⟨5, 100, 0⟩] =
      17 / 2 ∧
    ADBS.remove_outliers [⟨0, 1, 0⟩, ⟨1, 2, 0⟩, ⟨2, 3, 0⟩, ⟨3, 4, 0⟩, ⟨4, 5, 0⟩, ⟨5, 100, 0⟩] =
      [⟨0, 1, 0⟩, ⟨1, 2, 0⟩, ⟨2, 3, 0⟩, ⟨3, 4, 0⟩, ⟨4, 5, 0⟩] := by
  refine ⟨fun df => ?_, by decide, by decide, by decide, by decide, by decide⟩
  cases df with
  | nil =>
    exact ⟨List.Sublist.refl [], fun r => by
      constructor
      · intro h; exact absurd h (List.not_mem_nil r)
      · intro h; exact absurd h.1 (List.not_mem_nil r)⟩
  | cons a l =>
    constructor
    · show (List.filter
          (fun r => decide (ADBS.lower_bound (a :: l) ≤ r.lfp) &&
            decide (r.lfp ≤ ADBS.upper_bound (a :: l))) (a :: l)).Sublist (a :: l)
      exact List.filter_sublist (a :: l)
    · intro r
      show r ∈ List.filter
          (fun r => decide (ADBS.lower_bound (a :: l) ≤ r.lfp) &&
            decide (r.lfp ≤ ADBS.upper_bound (a :: l))) (a :: l) ↔ _
      rw [List.mem_filter, Bool.and_eq_true, decide_eq_true_eq, decide_eq_true_eq]

/-- C5: the time-window filter keeps exactly the records whose timestamp is
at least the maximum timestamp minus the window, the comparison being
inclusive; it returns a subsequence in original order, and the empty series
is returned unchanged. -/
theorem C5_time_window_retains_inclusive_cutoff :
    (∀ (df : List ADBS.Record) (d : ℚ), (ADBS.time_window_filter df d).Sublist df) ∧
    (∀ d : ℚ, ADBS.time_window_filter [] d = []) ∧
    (∀ (df : List ADBS.Record) (d l : ℚ), ADBS.latest_time df = some l →
      ∀ r : ADBS.Record,
        r ∈ ADBS.time_window_filter df d ↔ r ∈ df ∧ l - d ≤ r.dateTime) := by
  refine ⟨fun df d => ?_, fun d => rfl, fun df d l hl r => ?_⟩
  · unfold ADBS.time_window_filter
    split
    · exact List.Sublist.refl df
    · exact List.filter_sublist df
  · unfold ADBS.time_window_filter
    rw [hl]
    simp [List.mem_filter]

/-- C5 witness: a record lying exactly at the cutoff (timestamp 6 = 30 - 24)
is retained. -/
theorem C5_time_window_retains_inclusive_cutoff_witness :
    (⟨6, 0, 0⟩ : ADBS.Record) ∈ ADBS.time_window_filter [⟨6, 0, 0⟩, ⟨30, 1, 1⟩] 24 :=
  (C5_time_window_retains_inclusive_cutoff.2.2 [⟨6, 0, 0⟩, ⟨30, 1, 1⟩] 24 30 (by decide)
    ⟨6, 0, 0⟩).mpr (by decide)

/-- C6 counterexample: with timestamps [t0, t0+1h, t0+5h, t0+30h] (t0 = 0)
and a 24-hour window the filter returns only the record at t0+30h; the
record at t0+5h — which the claim says is retained — is dropped, its
distance from the maximum being 25h. -/
theorem C6_time_window_24h_example_counterexample :
    ADBS.time_window_filter [⟨0, 10, 1⟩, ⟨1, 11, 1⟩, ⟨5, 12, 1⟩, ⟨30, 13, 1⟩] 24 =
      [⟨30, 13, 1⟩] ∧
    (⟨5, 12, 1⟩ : ADBS.Record) ∉
      ADBS.time_window_filter [⟨0, 10, 1⟩, ⟨1, 11, 1⟩, ⟨5, 12, 1⟩, ⟨30, 13, 1⟩] 24 := by
  constructor <;> decide

/-- C6 amended: for the series with timestamps [t0, t0+1h, t0+5h, t0+30h]
and a 24-hour window, the cutoff is t0+6h and exactly the record at t0+30h
survives; t0, t0+1h and t0+5h are dropped. -/
theorem C6_time_window_24h_example (t0 : ℚ) :
    ADBS.time_window_filter
        [⟨t0, 10, 1⟩, ⟨t0 + 1, 11, 1⟩, ⟨t0 + 5, 12, 1⟩, ⟨t0 + 30, 13, 1⟩] 24 =
      [⟨t0 + 30, 13, 1⟩] := by
  have h1 : max t0 (t0 + 1) = t0 + 1 := max_eq_right (by linarith)
  have h2 : max (t0 + 1) (t0 + 5) = t0 + 5 := max_eq_right (by linarith)
  have h3 : max (t0 + 5) (t0 + 30) = t0 + 30 := max_eq_right (by linarith)
  have hmax : ADBS.latest_time
      [⟨t0, 10, 1⟩, ⟨t0 + 1, 11, 1⟩, ⟨t0 + 5, 12, 1⟩, ⟨t0 + 30, 13, 1⟩] =
      some (t0 + 30) := by
    show some (max (max (max t0 (t0 + 1)) (t0 + 5)) (t0 + 30)) = some (t0 + 30)
    rw [h1, h2, h3]
  unfold ADBS.time_window_filter
  rw [hmax]
  have c1 : (t0 + 30 - 24 ≤ t0) = False := eq_false (by linarith)
  have c2 : (t0 + 30 - 24 ≤ t0 + 1) = False := eq_false (by linarith)
  have c3 : (t0 + 30 - 24 ≤ t0 + 5) = False := eq_false (by linarith)
  have c4 : (t0 + 30 - 24 ≤ t0 + 30) = True := eq_true (by linarith)
  simp only [List.filter, c1, c2, c3, c4, decide_False, decide_True]

/-- C8: a document lacking the requested hemisphere's trend-log key makes
the aDBS `extract_lfp_amplitude_data` fail (the empty record list gives a
column-less frame on which `sort_values("DateTime")` raises `KeyError`),
while the streamlit variant returns the empty series and the downstream
filters map the empty series to itself. -/
theorem C8_missing_hemisphere_key_behavior :
    ADBS.extract_lfp_amplitude_data
        ⟨[("HemisphereLocationDef.Left", [("k", [⟨some 1, some 2, some 3⟩])])]⟩
        "Right" 24 = .error () ∧
    ADBS.extract_lfp_amplitude_data_plotly
        ⟨[("HemisphereLocationDef.Left", [("k", [⟨some 1, some 2, some 3⟩])])]⟩
        "Right" = .ok [] ∧
    ADBS.remove_outliers [] = [] ∧
    ∀ d : ℚ, ADBS.time_window_filter [] d = [] :=
  ⟨rfl, rfl, rfl, fun _ => rfl⟩

namespace PerceptSessions

/- Sanitization leaves no excluded key at any depth. -/
mutual
theorem hasKey_remove_json (excl : List String) :
    (j : Json) → hasKeyJson excl (remove_long_columns excl j) = false
  | .null => rfl
  | .boolVal _ => rfl
  | .num _ => rfl
  | .str _ => rfl
  | .arr xs => hasKey_remove_arr excl xs
  | .obj fs => hasKey_remove_obj excl fs
theorem hasKey_remove_arr (excl : List String) :
    (xs : JsonArr) → hasKeyArr excl (removeArr excl xs) = false
  | .nil => rfl
  | .cons j rest => by
    simp only [removeArr, hasKeyArr, Bool.or_eq_false_iff]
    exact ⟨hasKey_remove_json excl j, hasKey_remove_arr excl rest⟩
theorem hasKey_remove_obj (excl : List String) :
    (fs : JsonObj) → hasKeyObj excl (removeObj excl fs) = false
  | .nil => rfl
  | .cons k v rest => by
    by_cases hk : excl.contains k = true
    · simp only [removeObj, hk, if_true]
      exact hasKey_remove_obj excl rest
    · have hk0 : excl.contains k = false := Bool.eq_false_iff.mpr hk
      have hk1 : ¬(k ∈ excl) := by simpa using hk0
      simp [removeObj, hk0, hk1, hasKeyObj, hasKey_remove_json excl v,
        hasKey_remove_obj excl rest]
end

/- A tree containing no excluded key is left entirely unchanged: every
other key, value, element and their ordering survive sanitization
byte-identically. -/
mutual
theorem remove_eq_self_json (excl : List String) :
    (j : Json) → hasKeyJson excl j = false → remove_long_columns excl j = j
  | .null, _ => rfl
  | .boolVal _, _ => rfl
  | .num _, _ => rfl
  | .str _, _ => rfl
  | .arr xs, h => by
    simp only [remove_long_columns]
    rw [remove_eq_self_arr excl xs h]
  | .obj fs, h => by
    simp only [remove_long_columns]
    rw [remove_eq_self_obj excl fs h]
theorem remove_eq_self_arr (excl : List String) :
    (xs : JsonArr) → hasKeyArr excl xs = false → removeArr excl xs = xs
  | .nil, _ => rfl
  | .cons j rest, h => by
    have h2 := Bool.or_eq_false_iff.mp h
    simp only [removeArr]
    rw [remove_eq_self_json excl j h2.1, remove_eq_self_arr excl rest h2.2]
theorem remove_eq_self_obj (excl : List String) :
    (fs : JsonObj) → hasKeyObj excl fs = false → removeObj excl fs = fs
  | .nil, _ => rfl
  | .cons k v rest, h => by
    have h2 := Bool.or_eq_false_iff.mp h
    have h3 := Bool.or_eq_false_iff.mp h2.1
    simp only [removeObj, h3.1, Bool.false_eq_true, if_false]
    rw [remove_eq_self_json excl v h3.2, remove_eq_self_obj excl rest h2.2]
end

/-- On every mapping node — dirty or clean — sanitization is: first drop
exactly the excluded-key entries (order untouched), then sanitize each
kept value in place. Nothing is reordered, renamed or invented. -/
theorem removeObj_eq_sanitize_filterKeys (excl : List String) :
    ∀ fs : JsonObj, removeObj excl fs = sanitizeValues excl (filterKeys excl fs)
  | .nil => rfl
  | .cons k v rest => by
    by_cases hk : excl.contains k = true
    · simp only [removeObj, filterKeys, hk, if_true]
      exact removeObj_eq_sanitize_filterKeys excl rest
    · have hk0 : excl.contains k = false := Bool.eq_false_iff.mpr hk
      simp only [removeObj, filterKeys, hk0, Bool.false_eq_true, if_false,
        sanitizeValues]
      rw [removeObj_eq_sanitize_filterKeys excl rest]

/-- On every mapping node the surviving key list is exactly the input key
list filtered to non-excluded keys, in the original order. -/
theorem keysObj_removeObj (excl : List String) :
    ∀ fs : JsonObj,
      keysObj (removeObj excl fs) = (keysObj fs).filter fun k => !(excl.contains k)
  | .nil => rfl
  | .cons k v rest => by
    by_cases hk : excl.contains k = true
    · simp only [removeObj, keysObj, hk, if_true, List.filter_cons, Bool.not_true,
        Bool.false_eq_true, if_false]
      exact keysObj_removeObj excl rest
    · have hk0 : excl.contains k = false := Bool.eq_false_iff.mpr hk
      simp only [removeObj, keysObj, hk0, Bool.false_eq_true, if_false,
        List.filter_cons, Bool.not_false, if_true]
      rw [keysObj_removeObj excl rest]

/-- Sequence nodes keep their length under sanitization. -/
theorem lengthArr_removeArr (excl : List String) :
    ∀ xs : JsonArr, lengthArr (removeArr excl xs) = lengthArr xs
  | .nil => rfl
  | .cons j rest => by
    simp only [removeArr, lengthArr]
    rw [lengthArr_removeArr excl rest]

/-- Sequence nodes are sanitized pointwise: the n-th output element is the
sanitization of the n-th input element, so order and positions survive. -/
theorem getArr_removeArr (excl : List String) :
    ∀ (xs : JsonArr) (n : ℕ),
      getArr (removeArr excl xs) n = (getArr xs n).map (remove_long_columns excl)
  | .nil, _ => rfl
  | .cons _ _, 0 => rfl
  | .cons _ rest, n + 1 => getArr_removeArr excl rest n

end PerceptSessions

/-- C3: sanitization with the excluded keys {SignalFrequencies,
SignalPsdValues} leaves no excluded key in any mapping at any depth
(including inside sequences), and — on every tree, also those containing
excluded keys — preserves all other structure: each mapping node becomes
exactly its non-excluded entries, in order, with each kept value sanitized
in place (its key list is the input key list filtered to non-excluded
keys); each sequence node keeps its length and is sanitized pointwise;
scalars pass through unchanged; a tree free of excluded keys is returned
byte-identical; the concrete example drops the two excluded keys at top
level and inside a nested sequence while preserving everything else. -/
theorem C3_sanitize_drops_exactly_excluded_keys :
    (∀ j : PerceptSessions.Json,
        PerceptSessions.hasKeyJson PerceptSessions.exclude_keys
          (PerceptSessions.remove_long_columns PerceptSessions.exclude_keys j) = false) ∧
    (∀ fs : PerceptSessions.JsonObj,
        PerceptSessions.removeObj PerceptSessions.exclude_keys fs =
          PerceptSessions.sanitizeValues PerceptSessions.exclude_keys
            (PerceptSessions.filterKeys PerceptSessions.exclude_keys fs)) ∧
    (∀ fs : PerceptSessions.JsonObj,
        PerceptSessions.keysObj (PerceptSessions.removeObj PerceptSessions.exclude_keys fs) =
          (PerceptSessions.keysObj fs).filter fun k =>
            !(PerceptSessions.exclude_keys.contains k)) ∧
    (∀ xs : PerceptSessions.JsonArr,
        PerceptSessions.lengthArr (PerceptSessions.removeArr PerceptSessions.exclude_keys xs) =
          PerceptSessions.lengthArr xs) ∧
    (∀ (xs : PerceptSessions.JsonArr) (n : ℕ),
        PerceptSessions.getArr (PerceptSessions.removeArr PerceptSessions.exclude_keys xs) n =
          (PerceptSessions.getArr xs n).map
            (PerceptSessions.remove_long_columns PerceptSessions.exclude_keys)) ∧
    (∀ (b : Bool) (q : ℚ) (s : String),
        PerceptSessions.remove_long_columns PerceptSessions.exclude_keys .null = .null ∧
        PerceptSessions.remove_long_columns PerceptSessions.exclude_keys (.boolVal b) =
          .boolVal b ∧
        PerceptSessions.remove_long_columns PerceptSessions.exclude_keys (.num q) = .num q ∧
        PerceptSessions.remove_long_columns PerceptSessions.exclude_keys (.str s) = .str s) ∧
    (∀ j : PerceptSessions.Json,
        PerceptSessions.hasKeyJson PerceptSessions.exclude_keys j = false →
        PerceptSessions.remove_long_columns PerceptSessions.exclude_keys j = j) ∧
    PerceptSessions.remove_long_columns PerceptSessions.exclude_keys
        (.obj (.cons "a" (.num 1)
          (.cons "SignalFrequencies" (.arr (.cons (.num 2) .nil))
          (.cons "b" (.arr (.cons
            (.obj (.cons "SignalPsdValues" (.num 3) (.cons "c" (.str "x") .nil)))
            .nil))
          .nil)))) =
      .obj (.cons "a" (.num 1)
        (.cons "b" (.arr (.cons (.obj (.cons "c" (.str "x") .nil)) .nil)) .nil)) :=
  ⟨PerceptSessions.hasKey_remove_json PerceptSessions.exclude_keys,
   PerceptSessions.removeObj_eq_sanitize_filterKeys PerceptSessions.exclude_keys,
   PerceptSessions.keysObj_removeObj PerceptSessions.exclude_keys,
   PerceptSessions.lengthArr_removeArr PerceptSessions.exclude_keys,
   PerceptSessions.getArr_removeArr PerceptSessions.exclude_keys,
   fun _ _ _ => ⟨rfl, rfl, rfl, rfl⟩,
   PerceptSessions.remove_eq_self_json PerceptSessions.exclude_keys, rfl⟩

/-- C3 witness: a tree free of excluded keys is returned unchanged. -/
theorem C3_sanitize_drops_exactly_excluded_keys_witness :
    PerceptSessions.remove_long_columns PerceptSessions.exclude_keys
        (.obj (.cons "keep" (.num 7) .nil)) =
      .obj (.cons "keep" (.num 7) .nil) :=
  C3_sanitize_drops_exactly_excluded_keys.2.2.2.2.2.2.1
    (.obj (.cons "keep" (.num 7) .nil)) rfl

namespace ADBS

/-- The group loop of `extract_lfp_thresholds` equals the declarative scan:
first hemisphere-matching channel found in any group flagged active. -/
theorem extract_eq_scan (groups : List Group) (hemisphere : String) :
    extract_lfp_thresholds groups hemisphere =
      resolve_thresholds_scan groups hemisphere := by
  induction groups with
  | nil => rfl
  | cons g rest ih =>
    by_cases hg : g.activeGroup.getD false = true
    · cases hc : findChannel g.sensingChannel hemisphere with
      | some s =>
        simp [extract_lfp_thresholds, resolve_thresholds_scan, hg, hc,
          List.filter_cons, List.findSome?_cons]
      | none =>
        simp only [extract_lfp_thresholds, resolve_thresholds_scan, hg, if_true,
          List.filter_cons, List.findSome?_cons, hc]
        exact ih
    · have hg0 : g.activeGroup.getD false = false := Bool.eq_false_iff.mpr hg
      simp only [extract_lfp_thresholds, resolve_thresholds_scan, hg0,
        Bool.false_eq_true, if_false, List.filter_cons]
      exact ih

end ADBS

/-- C4 counterexample: with two groups both flagged active, where the first
defines only a Right channel and the second a Left channel with thresholds
(80, 20), resolving Left returns (80, 20) — the code keeps scanning past
the first active group — whereas the claim's first-active-group rule
demands (absent, absent). -/
theorem C4_first_active_group_counterexample :
    ADBS.extract_lfp_thresholds
        [⟨some true, [⟨some "HemisphereLocationDef.Right", some 70, some 10⟩]⟩,
         ⟨some true, [⟨some "HemisphereLocationDef.Left", some 80, some 20⟩]⟩]
        "Left" = (some 80, some 20) ∧
    ADBS.resolve_thresholds_first_active
        [⟨some true, [⟨some "HemisphereLocationDef.Right", some 70, some 10⟩]⟩,
         ⟨some true, [⟨some "HemisphereLocationDef.Left", some 80, some 20⟩]⟩]
        "Left" = (none, none) :=
  ⟨rfl, rfl⟩

/-- C4 amended: threshold resolution scans the groups in order and returns
the upper/lower threshold fields of the first hemisphere-matching channel
found in any group flagged active (each field independently optional),
returning (absent, absent) when no active group contains a matching
channel; in particular, with two groups of which only the second is active
and defines a Left channel with thresholds (80, 20), resolving Left yields
(80, 20) and resolving Right yields (absent, absent). -/
theorem C4_threshold_resolution_scan :
    (∀ (groups : List ADBS.Group) (hemisphere : String),
        ADBS.extract_lfp_thresholds groups hemisphere =
          ADBS.resolve_thresholds_scan groups hemisphere) ∧
    ADBS.extract_lfp_thresholds
        [⟨some false, [⟨some "HemisphereLocationDef.Left", some 1, some 2⟩]⟩,
         ⟨some true, [⟨some "HemisphereLocationDef.Left", some 80, some 20⟩]⟩]
        "Left" = (some 80, some 20) ∧
    ADBS.extract_lfp_thresholds
        [⟨some false, [⟨some "HemisphereLocationDef.Left", some 1, some 2⟩]⟩,
         ⟨some true, [⟨some "HemisphereLocationDef.Left", some 80, some 20⟩]⟩]
        "Right" = (none, none) :=
  ⟨ADBS.extract_eq_scan, rfl, rfl⟩

/-- If a function sends every member of a list to `.ok` of a value, then
`mapM` over the list succeeds with the mapped values. -/
theorem mapM_ok_of_forall {α β : Type} (f : α → Except Unit β) (g : α → β) :
    ∀ l : List α, (∀ x ∈ l, f x = .ok (g x)) → l.mapM f = .ok (l.map g)
  | [], _ => rfl
  | a :: l, h => by
    rw [List.mapM_cons, h a (List.mem_cons_self a l),
      mapM_ok_of_forall f g l fun x hx => h x (List.mem_cons_of_mem a hx),
      List.map_cons]
    rfl

/-- C9 counterexample: an entry lacking the LFP key makes the flattening
loop raise a lookup error (the whole extraction fails) instead of
producing a record with the missing-value sentinel, which is what the
spec-modelled SchemaNavigator reading yields. -/
theorem C9_absent_field_raises_counterexample :
    ADBS.buildRecords [("bucket", [⟨some 1, none, some 2⟩])] = .error () ∧
    ADBS.buildRecords_spec [("bucket", [⟨some 1, none, some 2⟩])] =
      [⟨some 1, none, some 2⟩] :=
  ⟨rfl, rfl⟩

/-- C9 amended: when every entry carries all three keys, the series builder
appends exactly one record per entry across all bucket keys, reading
DateTime, LFP and AmplitudeInMilliAmps from each entry; an entry lacking
any of the three keys instead aborts the extraction with a lookup error
(it never yields zero, and never a sentinel record). -/
theorem C9_one_record_per_complete_entry (logs : ADBS.Buckets)
    (h : ∀ bucket ∈ logs, ∀ e ∈ bucket.2,
        e.dateTime.isSome = true ∧ e.lfp.isSome = true ∧
        e.amplitudeInMilliAmps.isSome = true) :
    ADBS.buildRecords logs =
      .ok (((logs.map fun bucket => bucket.2).flatten).map fun e =>
        ⟨e.dateTime.getD 0, e.lfp.getD 0, e.amplitudeInMilliAmps.getD 0⟩) := by
  unfold ADBS.buildRecords
  apply mapM_ok_of_forall
  intro e he
  obtain ⟨l, hl, hel⟩ := List.mem_flatten.mp he
  obtain ⟨bucket, hb, rfl⟩ := List.mem_map.mp hl
  obtain ⟨h1, h2, h3⟩ := h bucket hb e hel
  obtain ⟨d, hd⟩ := Option.isSome_iff_exists.mp h1
  obtain ⟨lv, hlv⟩ := Option.isSome_iff_exists.mp h2
  obtain ⟨a, ha⟩ := Option.isSome_iff_exists.mp h3
  simp only [ADBS.readEntry, ADBS.getKey, hd, hlv, ha]
  rfl

/-- C9 witness: a bucket of two complete entries yields exactly two
records with the fields read from the entries. -/
theorem C9_one_record_per_complete_entry_witness :
    ADBS.buildRecords [("b", [⟨some 1, some 2, some 3⟩, ⟨some 4, some 5, some 6⟩])] =
      .ok [⟨1, 2, 3⟩, ⟨4, 5, 6⟩] :=
  C9_one_record_per_complete_entry
    [("b", [⟨some 1, some 2, some 3⟩, ⟨some 4, some 5, some 6⟩])] (by decide)

namespace PerceptSessions

/-- A left fold by `Nat.min` is bounded by its initial accumulator. -/
theorem foldl_min_le_init : ∀ (ts : List ℕ) (a : ℕ), ts.foldl Nat.min a ≤ a
  | [], a => le_refl a
  | t :: ts, a =>
    le_trans (foldl_min_le_init ts (Nat.min a t)) (Nat.min_le_left a t)

/-- A left fold by `Nat.min` is bounded by every list member. -/
theorem foldl_min_le_mem : ∀ (ts : List ℕ) (a x : ℕ), x ∈ ts → ts.foldl Nat.min a ≤ x
  | t :: ts, a, x, h => by
    rcases List.mem_cons.mp h with rfl | hx
    · exact le_trans (foldl_min_le_init ts (Nat.min a x)) (Nat.min_le_right a x)
    · exact foldl_min_le_mem ts (Nat.min a t) x hx

/-- `list_min` is a lower bound of the list. -/
theorem list_min_le_of_mem {l : List ℕ} {x : ℕ} (h : x ∈ l) : list_min l ≤ x := by
  cases l with
  | nil => exact absurd h (List.not_mem_nil x)
  | cons t ts =>
    rcases List.mem_cons.mp h with rfl | hx
    · exact foldl_min_le_init ts x
    · exact foldl_min_le_mem ts t x hx

end PerceptSessions

/-- C10: an LfpData entry lacking the TicksInMs key contributes the
timestamp 0 (never a sentinel), so the extracted timestamp list contains 0,
the minimum the normalization subtracts is forced to 0, and every
normalized timestamp is simply t/1000 — the entry acts as occurring at or
before every genuine sample. -/
theorem C10_missing_ticks_reads_zero_and_pins_origin
    (lfp_data : List PerceptSessions.LfpDataItem)
    (item : PerceptSessions.LfpDataItem) (hmem : item ∈ lfp_data)
    (hmiss : item.ticksInMs = none) :
    (0 : ℕ) ∈ PerceptSessions.extract_timestamps lfp_data ∧
    PerceptSessions.list_min (PerceptSessions.extract_timestamps lfp_data) = 0 ∧
    PerceptSessions.normalize_timestamps (PerceptSessions.extract_timestamps lfp_data) =
      (PerceptSessions.extract_timestamps lfp_data).map fun t => (t : ℚ) / 1000 := by
  have h0 : (0 : ℕ) ∈ PerceptSessions.extract_timestamps lfp_data := by
    unfold PerceptSessions.extract_timestamps
    exact List.mem_map.mpr ⟨item, hmem, by rw [hmiss]; rfl⟩
  have hmin : PerceptSessions.list_min (PerceptSessions.extract_timestamps lfp_data) = 0 :=
    Nat.le_zero.mp (PerceptSessions.list_min_le_of_mem h0)
  refine ⟨h0, hmin, ?_⟩
  unfold PerceptSessions.normalize_timestamps
  rw [hmin]
  simp

/-- C10 witness: one entry without TicksInMs next to one at 2000 ms. -/
theorem C10_missing_ticks_reads_zero_and_pins_origin_witness :
    (0 : ℕ) ∈ PerceptSessions.extract_timestamps
        [⟨none, none, none⟩, ⟨some 2000, none, none⟩] ∧
    PerceptSessions.list_min (PerceptSessions.extract_timestamps
        [⟨none, none, none⟩, ⟨some 2000, none, none⟩]) = 0 ∧
    PerceptSessions.normalize_timestamps (PerceptSessions.extract_timestamps
        [⟨none, none, none⟩, ⟨some 2000, none, none⟩]) =
      (PerceptSessions.extract_timestamps
        [⟨none, none, none⟩, ⟨some 2000, none, none⟩]).map fun t => (t : ℚ) / 1000 :=
  C10_missing_ticks_reads_zero_and_pins_origin
    [⟨none, none, none⟩, ⟨some 2000, none, none⟩] ⟨none, none, none⟩ (by decide) rfl
